import Mathlib

/-!
Verification development for the Orion voice assistant core
(`voice_assistant.py`): intent recognition, the natural-language math
evaluator, the timer/alarm scheduler, the stopwatch state machine, the
Groq fallback gateway and the exit/terminate commands, shallowly embedded
in Lean.  Python machine behaviour is modelled with `Int`/`Nat`/`Rat`
(Python ints are unbounded; the float values reached by the claims are
exactly representable) and fallible code returns `Option`.
-/

namespace Orion

/-- The apostrophe character, written via its code point. -/
def apos : Char := Char.ofNat 39

/-- The apostrophe as a one-character string. -/
def aposS : String := String.mk [apos]

/-- Model of Python str.lower, character by character (ASCII input). -/
def pyLower (s : String) : String := String.mk (s.data.map Char.toLower)

/-- Model of Python str.strip: drop whitespace from both ends. -/
def pyStrip (s : String) : String :=
  String.mk (((s.data.dropWhile Char.isWhitespace).reverse.dropWhile Char.isWhitespace).reverse)

/-- Word characters for the regex \b boundary: [A-Za-z0-9_]. -/
def isWordChar (c : Char) : Bool := c.isAlphanum || c = '_'

/-- Match a literal character sequence at the head of the list, returning the rest. -/
def dropLit : List Char → List Char → Option (List Char)
  | [], cs => some cs
  | _ :: _, [] => none
  | a :: w, c :: cs => if a = c then dropLit w cs else none

/-- Match \s+ (one or more whitespace characters, greedily). -/
def dropSpaces1 : List Char → Option (List Char)
  | [] => none
  | c :: cs => if c.isWhitespace then some (cs.dropWhile Char.isWhitespace) else none

/-- Match a sequence of literal words separated by \s+ at the head of the list,
with the regex right boundary \b: the first unconsumed character, if any, must
not be a word character.  (The left \b is checked by the caller.) -/
def matchWords : List String → List Char → Option (List Char)
  | [], cs =>
    match cs with
    | [] => some []
    | c :: _ => if isWordChar c then none else some cs
  | [w], cs =>
    match dropLit w.data cs with
    | none => none
    | some rest =>
      match rest with
      | [] => some []
      | c :: _ => if isWordChar c then none else some rest
  | w :: ws, cs =>
    match dropLit w.data cs with
    | none => none
    | some rest =>
      match dropSpaces1 rest with
      | none => none
      | some rest2 => matchWords ws rest2

/-- One pass of re.sub for a \b-anchored word-sequence pattern: replace every
non-overlapping occurrence, scanning left to right over the original string.
`prevWord` records whether the previous character of the original string is a
word character (the left \b).  Fuel decreases once per step and is supplied as
`length + 1` by the wrapper, which is always enough since each step consumes at
least one character. -/
def subWordsAux (ws : List String) (rep : List Char) : ℕ → Bool → List Char → List Char
  | 0, _, cs => cs
  | _ + 1, _, [] => []
  | fuel + 1, prevWord, c :: cs =>
    if prevWord = false then
      match matchWords ws (c :: cs) with
      | some rest => rep ++ subWordsAux ws rep fuel true rest
      | none => c :: subWordsAux ws rep fuel (isWordChar c) cs
    else
      c :: subWordsAux ws rep fuel (isWordChar c) cs

/-- re.sub of a \b word \s+ word ... \b pattern by a replacement. -/
def subWords (ws : List String) (rep : String) (cs : List Char) : List Char :=
  subWordsAux ws rep.data (cs.length + 1) false cs

/-- re.sub for a plain literal pattern with no anchoring (the single characters
× and ÷ in the replacement table). -/
def subLitAux (pat rep : List Char) : ℕ → List Char → List Char
  | 0, cs => cs
  | _ + 1, [] => []
  | fuel + 1, c :: cs =>
    match dropLit pat (c :: cs) with
    | some rest => rep ++ subLitAux pat rep fuel rest
    | none => c :: subLitAux pat rep fuel cs

/-- Match, at the head of the list, the question-word pattern of
_evaluate_math_expression, whose regex alternatives are tried in order:
"what" followed by an optional "(apostrophe)s", "s" or " is", or one of
"calculate", "solve", "compute", "find", in every case followed by \s+
(which is consumed as part of the match). -/
def matchQuestionWord (cs : List Char) : Option (List Char) :=
  match dropLit "what".data cs with
  | some rest =>
    (match dropLit [apos, 's'] rest with
     | some r => dropSpaces1 r
     | none =>
       match dropLit ['s'] rest with
       | some r => dropSpaces1 r
       | none =>
         match dropLit [' ', 'i', 's'] rest with
         | some r => dropSpaces1 r
         | none => dropSpaces1 rest)
  | none =>
    match dropLit "calculate".data cs with
    | some r => dropSpaces1 r
    | none =>
      match dropLit "solve".data cs with
      | some r => dropSpaces1 r
      | none =>
        match dropLit "compute".data cs with
        | some r => dropSpaces1 r
        | none =>
          match dropLit "find".data cs with
          | some r => dropSpaces1 r
          | none => none

/-- Scanning loop of the question-word removal (left \b tracked as in
subWordsAux; the match ends in whitespace, so after a removal the previous
character is not a word character). -/
def stripQuestionWordsAux : ℕ → Bool → List Char → List Char
  | 0, _, cs => cs
  | _ + 1, _, [] => []
  | fuel + 1, prevWord, c :: cs =>
    if prevWord = false then
      match matchQuestionWord (c :: cs) with
      | some rest => stripQuestionWordsAux fuel false rest
      | none => c :: stripQuestionWordsAux fuel (isWordChar c) cs
    else
      c :: stripQuestionWordsAux fuel (isWordChar c) cs

/-- Model of re.sub(r"\b(what(...)?|calculate|solve|compute|find)\s+", "", e). -/
def stripQuestionWords (cs : List Char) : List Char :=
  stripQuestionWordsAux (cs.length + 1) false cs

/-- A replacement pattern of _evaluate_math_expression: either a \b-anchored
word sequence or a plain literal. -/
inductive RPat where
  | words (ws : List String)
  | lit (s : String)

/-- Apply one (pattern, replacement) pair, as re.sub does. -/
def applyRPat (pr : RPat × String) (cs : List Char) : List Char :=
  match pr.1 with
  | RPat.words ws => subWords ws pr.2 cs
  | RPat.lit s => subLitAux s.data pr.2.data (cs.length + 1) cs

/-- The ordered replacement list of _evaluate_math_expression, in source
order.  Note that the "of" rule precedes the "square root of" rule. -/
def replacements : List (RPat × String) :=
  [ (RPat.words ["plus"], " + "),
    (RPat.words ["minus"], " - "),
    (RPat.words ["times"], " * "),
    (RPat.words ["multiplied", "by"], " * "),
    (RPat.words ["divided", "by"], " / "),
    (RPat.words ["over"], " / "),
    (RPat.words ["into"], " * "),
    (RPat.words ["of"], " * "),
    (RPat.words ["x"], " * "),
    (RPat.lit "×", " * "),
    (RPat.lit "÷", " / "),
    (RPat.words ["squared"], " ** 2"),
    (RPat.words ["cubed"], " ** 3"),
    (RPat.words ["square", "root", "of"], "sqrt("),
    (RPat.words ["percent", "of"], " * 0.01 * ") ]

/-- A Python number: int or float.  The float values reached by the claims
are exactly representable, so floats are modelled as rationals. -/
inductive PyNum where
  | int (n : ℤ)
  | float (x : ℚ)
deriving DecidableEq

/-- Numeric value of a Python number. -/
def PyNum.toQ : PyNum → ℚ
  | int n => n
  | float x => x

/-- Python +: int + int is an int, otherwise a float. -/
def pyAdd : PyNum → PyNum → PyNum
  | .int m, .int n => .int (m + n)
  | a, b => .float (a.toQ + b.toQ)

/-- Python binary -. -/
def pySub : PyNum → PyNum → PyNum
  | .int m, .int n => .int (m - n)
  | a, b => .float (a.toQ - b.toQ)

/-- Python *. -/
def pyMul : PyNum → PyNum → PyNum
  | .int m, .int n => .int (m * n)
  | a, b => .float (a.toQ * b.toQ)

/-- Python unary -. -/
def pyNeg : PyNum → PyNum
  | .int n => .int (-n)
  | .float x => .float (-x)

/-- Python true division /: the result is always a float; division by zero
raises ZeroDivisionError, modelled as none. -/
def pyDiv (a b : PyNum) : Option PyNum :=
  if b.toQ = 0 then none else some (.float (a.toQ / b.toQ))

/-- Python **: int ** nonnegative int is an int; a negative integer exponent
gives a float (0 to a negative power raises); a non-integral float exponent
leaves the rational model and is mapped to none (no claim reaches it). -/
def pyPow (a b : PyNum) : Option PyNum :=
  match a, b with
  | .int m, .int n =>
    if 0 ≤ n then some (.int (m ^ n.toNat))
    else if m = 0 then none
    else some (.float ((m : ℚ) ^ n))
  | _, _ =>
    if b.toQ.den = 1 then
      if a.toQ = 0 ∧ b.toQ.num < 0 then none
      else some (.float (a.toQ ^ b.toQ.num))
    else none

/-- Tokens of the arithmetic expressions reachable after the character
allowlist of _evaluate_math_expression. -/
inductive Tok where
  | num (v : PyNum)
  | plus
  | minus
  | star
  | slash
  | pow
  | lparen
  | rparen
deriving DecidableEq

/-- Value of a digit run. -/
def digitsToNat (ds : List Char) : ℕ := ds.foldl (fun a c => 10 * a + (c.toNat - 48)) 0

/-- Lex one Python numeric literal from a maximal run of digits and dots. -/
def lexNumber (run : List Char) : Option PyNum :=
  if run.isEmpty then none
  else
    let dots := (run.filter (fun c => c = '.')).length
    if dots = 0 then some (.int (digitsToNat run))
    else if dots = 1 then
      let ip := run.takeWhile (fun c => c ≠ '.')
      let fp := (run.dropWhile (fun c => c ≠ '.')).drop 1
      if ip.isEmpty ∧ fp.isEmpty then none
      else some (.float ((digitsToNat ip : ℚ) + (digitsToNat fp : ℚ) / (10 : ℚ) ^ fp.length))
    else none

/-- Tokenizer for the restricted expression language (fuel = length + 1). -/
def tokenizeAux : ℕ → List Char → Option (List Tok)
  | 0, _ => none
  | _ + 1, [] => some []
  | fuel + 1, c :: cs =>
    if c.isWhitespace then tokenizeAux fuel cs
    else if c.isDigit || c = '.' then
      let run := (c :: cs).takeWhile (fun d => d.isDigit || d = '.')
      let rest := (c :: cs).dropWhile (fun d => d.isDigit || d = '.')
      match lexNumber run with
      | none => none
      | some v => (tokenizeAux fuel rest).map (Tok.num v :: ·)
    else if c = '*' then
      match cs with
      | '*' :: cs2 => (tokenizeAux fuel cs2).map (Tok.pow :: ·)
      | _ => (tokenizeAux fuel cs).map (Tok.star :: ·)
    else if c = '+' then (tokenizeAux fuel cs).map (Tok.plus :: ·)
    else if c = '-' then (tokenizeAux fuel cs).map (Tok.minus :: ·)
    else if c = '/' then (tokenizeAux fuel cs).map (Tok.slash :: ·)
    else if c = '(' then (tokenizeAux fuel cs).map (Tok.lparen :: ·)
    else if c = ')' then (tokenizeAux fuel cs).map (Tok.rparen :: ·)
    else none

mutual

/-- expression := term (('+'|'-') term)*  (Python precedence). -/
def parseExpr : ℕ → List Tok → Option (PyNum × List Tok)
  | 0, _ => none
  | fuel + 1, ts =>
    match parseTerm fuel ts with
    | none => none
    | some (a, r) => parseExprLoop fuel a r

/-- Left-associated + and - chain. -/
def parseExprLoop : ℕ → PyNum → List Tok → Option (PyNum × List Tok)
  | 0, _, _ => none
  | fuel + 1, a, ts =>
    match ts with
    | Tok.plus :: r =>
      match parseTerm fuel r with
      | none => none
      | some (b, r2) => parseExprLoop fuel (pyAdd a b) r2
    | Tok.minus :: r =>
      match parseTerm fuel r with
      | none => none
      | some (b, r2) => parseExprLoop fuel (pySub a b) r2
    | _ => some (a, ts)

/-- term := unary (('*'|'/') unary)*. -/
def parseTerm : ℕ → List Tok → Option (PyNum × List Tok)
  | 0, _ => none
  | fuel + 1, ts =>
    match parseUnary fuel ts with
    | none => none
    | some (a, r) => parseTermLoop fuel a r

/-- Left-associated * and / chain; a zero division aborts with none. -/
def parseTermLoop : ℕ → PyNum → List Tok → Option (PyNum × List Tok)
  | 0, _, _ => none
  | fuel + 1, a, ts =>
    match ts with
    | Tok.star :: r =>
      match parseUnary fuel r with
      | none => none
      | some (b, r2) => parseTermLoop fuel (pyMul a b) r2
    | Tok.slash :: r =>
      match parseUnary fuel r with
      | none => none
      | some (b, r2) =>
        match pyDiv a b with
        | none => none
        | some ab => parseTermLoop fuel ab r2
    | _ => some (a, ts)

/-- unary := ('+'|'-') unary | power. -/
def parseUnary : ℕ → List Tok → Option (PyNum × List Tok)
  | 0, _ => none
  | fuel + 1, ts =>
    match ts with
    | Tok.plus :: r => parseUnary fuel r
    | Tok.minus :: r =>
      match parseUnary fuel r with
      | none => none
      | some (a, r2) => some (pyNeg a, r2)
    | _ => parsePower fuel ts

/-- power := atom followed by an optional pow-operator unary (the right
operand is a unary, as in Python). -/
def parsePower : ℕ → List Tok → Option (PyNum × List Tok)
  | 0, _ => none
  | fuel + 1, ts =>
    match parseAtom fuel ts with
    | none => none
    | some (a, r) =>
      match r with
      | Tok.pow :: r2 =>
        match parseUnary fuel r2 with
        | none => none
        | some (b, r3) =>
          match pyPow a b with
          | none => none
          | some ab => some (ab, r3)
      | _ => some (a, r)

/-- atom := number | '(' expression ')'. -/
def parseAtom : ℕ → List Tok → Option (PyNum × List Tok)
  | 0, _ => none
  | fuel + 1, ts =>
    match ts with
    | Tok.num v :: r => some (v, r)
    | Tok.lparen :: r =>
      match parseExpr fuel r with
      | none => none
      | some (a, r2) =>
        match r2 with
        | Tok.rparen :: r3 => some (a, r3)
        | _ => none
    | _ => none

end

/-- Model of Python eval restricted to the arithmetic expressions reachable
after the character allowlist.  Every failure mode (syntax error, zero
division) is none, matching the enclosing try/except of the source. -/
def pyEval (s : String) : Option PyNum :=
  match tokenizeAux (s.data.length + 1) s.data with
  | none => none
  | some toks =>
    match parseExpr (8 * toks.length + 8) toks with
    | none => none
    | some (v, []) => some v
    | some (_, _ :: _) => none

/-- Python round to the nearest integer, ties to even (on the exact model). -/
def roundHalfEven (x : ℚ) : ℤ :=
  let n := ⌊x⌋
  let f := x - n
  if f < 1 / 2 then n
  else if 1 / 2 < f then n + 1
  else if n % 2 = 0 then n else n + 1

/-- Model of round(x, 6). -/
def pyRound6 (x : ℚ) : ℚ := (roundHalfEven (x * 1000000) : ℚ) / 1000000

/-- Model of Python float(s) for the strings reachable here: after the digit
and operator checks the string has no +, -, *, /, so only digit-and-dot
literals can succeed; anything else raises ValueError (none). -/
def pyFloatParse (s : String) : Option ℚ :=
  let cs := s.data
  if cs.isEmpty then none
  else if cs.any (fun c => !(c.isDigit || c = '.')) then none
  else
    match lexNumber cs with
    | some (.int n) => some (n : ℚ)
    | some (.float x) => some x
    | none => none

/-- Allowed characters kept by the character allowlist re.sub: digits, dot,
the four operators, parentheses and whitespace. -/
def isKeptChar (c : Char) : Bool :=
  c.isDigit || c = '.' || c = '+' || c = '-' || c = '*' || c = '/' ||
    c = '(' || c = ')' || c.isWhitespace

/-- Operator characters tested by re.search(r"[\+\-\*\/]", e). -/
def isOpChar (c : Char) : Bool := c = '+' || c = '-' || c = '*' || c = '/'

/-- Shallow embedding of VoiceAssistant._evaluate_math_expression.  The result
none models every path that returns None, including any caught exception.
The sqrt step of the source replaces the substring "sqrt(" by math.sqrt.__name__
followed by "(" — that is, by "sqrt(" again — and is therefore the identity;
the subsequent character allowlist would strip the letters anyway. -/
def evaluate_math_expression (query : String) : Option PyNum :=
  let e0 := (pyStrip (pyLower query)).data
  let e1 := stripQuestionWords e0
  let e2 := replacements.foldl (fun cs pr => applyRPat pr cs) e1
  let e3 := e2.filter isKeptChar
  let e4 := (pyStrip (String.mk e3)).data
  if !(e4.any Char.isDigit) then none
  else if !(e4.any isOpChar) then (pyFloatParse (String.mk e4)).map PyNum.float
  else if !(e4.all (fun c => ("0123456789+-*/(). ".data).contains c)) then none
  else
    match pyEval (String.mk e4) with
    | none => none
    | some (.int n) => some (.int n)
    | some (.float x) => some (.float (pyRound6 x))

/-! Intent classifier: _setup_command_patterns and recognize_command.  The
regex engine is an external facility and is abstracted by an oracle
`rmatch pattern query` (re.search with re.IGNORECASE); the pattern table
below carries the pattern strings of the source in its key and pattern
order, which is the scanning order of the Python dict (insertion-ordered). -/

/-- The ordered command pattern table of _setup_command_patterns. -/
def command_patterns : List (String × List String) :=
  [ ("time",
     [ "\\b(what\\s+time|current\\s+time|time\\s+is|tell\\s+time|tell\\s+me\\s+the\\s+time)\\b",
       "\\b(what\\s+is\\s+the\\s+time|whats\\s+the\\s+time)\\b",
       "\\b(time\\s+right\\s+now|current\\s+time)\\b",
       "\\b(what\\s+time\\s+is\\s+it)\\b",
       "\\bclock\\b" ]),
    ("date",
     [ "\\b(what\\s+date|current\\s+date|today\\" ++ aposS ++ "s\\s+date|what\\s+day)\\b",
       "\\b(what\\s+is\\s+the\\s+date|whats\\s+the\\s+date)\\b",
       "\\b(what\\s+day\\s+is\\s+it|what\\s+day\\s+is\\s+today)\\b",
       "\\b(todays\\s+date|date\\s+today)\\b" ]),
    ("greeting",
     [ "\\b(hello|hi|hey|good\\s+morning|good\\s+afternoon|good\\s+evening)\\b" ]),
    ("exit",
     [ "\\b(exit|quit|goodbye|bye|shutdown|turn\\s+off)\\b",
       "\\b(aurora\\s+stop|aurora\\s+exit|aurora\\s+quit)\\b",
       "^stop$" ]),
    ("help",
     [ "\\b(help|what\\s+can\\s+you\\s+do|commands|assistance)\\b" ]),
    ("weather",
     [ "\\b(weather|forecast|temperature)\\b",
       "\\b(weather\\s+in|temperature\\s+in)\\b" ]),
    ("timer",
     [ "\\b(set\\s+(a\\s+)?timer|timer\\s+for|countdown|remind\\s+me)\\b" ]),
    ("alarm",
     [ "\\b(set\\s+(an?\\s+)?alarm|alarm\\s+for|wake\\s+me)\\b" ]),
    ("stopwatch",
     [ "\\b(stopwatch|start\\s+stopwatch|stop\\s+stopwatch|reset\\s+stopwatch)\\b" ]),
    ("app",
     [ "\\b(open|launch|start|run)\\s+\\w+\\b" ]),
    ("search",
     [ "\\b(search\\s+for|look\\s+up|google|find)\\b" ]),
    ("system",
     [ "\\b(system\\s+info|battery|memory|disk|storage|cpu)\\b",
       "\\b(how\\s+much\\s+(battery|memory|storage))\\b",
       "\\b(memory\\s+usage|ram\\s+usage|disk\\s+usage|storage\\s+usage)\\b",
       "\\b(my\\s+(battery|memory|storage|system))\\b" ]),
    ("calculate",
     [ "\\b(calculate|solve|compute)\\b",
       "\\b(add|plus|subtract|minus|multiply|times|divide|divided)\\b",
       "\\b(what\\s+(is|are)\\s+\\d)\\b" ]) ]

/-- Shallow embedding of VoiceAssistant.recognize_command.  `rmatch` is the
regex oracle; `nlp` is the optional spaCy second pass (None when spaCy is
unavailable), a total function from the lowered query to an intent —
possibly "unknown", like the fall-through of the source. -/
def recognize_command (rmatch : String → String → Bool) (nlp : Option (String → String))
    (query : String) : String :=
  if query = "" then "unknown"
  else
    let q := pyLower query
    match command_patterns.find? (fun cp => cp.2.any (fun p => rmatch p q)) with
    | some cp => cp.1
    | none =>
      match nlp with
      | some h => h q
      | none => "unknown"

/-! Persistent scheduler: TimerManager, TimerManagerFallback and the
APScheduler job store.  Wall-clock instants are rational seconds; datetimes
are (day, seconds-within-day) pairs mirroring naive Python datetimes. -/

/-- One entry of a list_timers result: the dict with id, name, remaining. -/
structure TimerEntry where
  id : ℤ
  name : String
  remaining : ℚ
deriving DecidableEq

/-- One thread-backed fallback timer record of TimerManagerFallback. -/
structure FallbackTimer where
  name : String
  duration : ℤ
  start_time : ℚ
deriving DecidableEq

/-- The state of TimerManagerFallback: its timers dict (insertion order) and
its id counter.  The worker threads are external; their wake-up action is a
separate transition not needed by the claims. -/
structure FallbackState where
  timers : List (ℤ × FallbackTimer)
  counter : ℤ
deriving DecidableEq

/-- Fresh TimerManagerFallback. -/
def FallbackState.init : FallbackState := ⟨[], 0⟩

/-- TimerManagerFallback.set_timer (the name is always supplied by the
caller in TimerManager.set_timer). -/
def FallbackState.set_timer (s : FallbackState) (now : ℚ) (duration : ℤ) (name : String) :
    ℤ × FallbackState :=
  let tid := s.counter + 1
  (tid, ⟨s.timers ++ [(tid, ⟨name, duration, now⟩)], tid⟩)

/-- TimerManagerFallback.cancel_timer: delete the entry if present. -/
def FallbackState.cancel_timer (s : FallbackState) (tid : ℤ) : Bool × FallbackState :=
  if s.timers.any (fun p => p.1 == tid) then
    (true, ⟨s.timers.filter (fun p => p.1 != tid), s.counter⟩)
  else (false, s)

/-- TimerManagerFallback.list_timers: remaining = duration - elapsed, with no
filtering of non-positive remainders. -/
def FallbackState.list_timers (s : FallbackState) (now : ℚ) : List TimerEntry :=
  s.timers.map (fun p => ⟨p.1, p.2.name, (p.2.duration : ℚ) - (now - p.2.start_time)⟩)

/-- The per-timer metadata kept in TimerManager.timers: an APScheduler job
(job id, name, run_at) or a fallback timer reference. -/
inductive TMeta where
  | aps (job_id : String) (name : String) (run_at : ℚ)
  | fallback (fallback_id : ℤ) (name : String)
deriving DecidableEq

/-- The state of TimerManager together with its collaborators: the timers
dict (insertion order), the id counter, the scheduler availability flag, the
ids stored in the SQLite-backed APScheduler job store, and the fallback
manager. -/
structure TMState where
  timers : List (ℤ × TMeta)
  counter : ℤ
  schedAvailable : Bool
  jobstore : List String
  fallback : FallbackState
deriving DecidableEq

/-- Fresh TimerManager over a scheduler wrapper of the given availability. -/
def TMState.init (avail : Bool) : TMState := ⟨[], 0, avail, [], FallbackState.init⟩

/-- Dict lookup self.timers.get(t_id). -/
def lookupTimer (s : TMState) (tid : ℤ) : Option TMeta :=
  (s.timers.find? (fun p => p.1 == tid)).map Prod.snd

/-- Dict deletion del self.timers[t_id]. -/
def eraseTimer (l : List (ℤ × TMeta)) (tid : ℤ) : List (ℤ × TMeta) :=
  l.filter (fun p => p.1 != tid)

/-- Shallow embedding of TimerManager.set_timer.  `now` is
dt.datetime.now() as absolute seconds, `ts` is int(time.time()) used in the
job id.  The exception path of add_date_job is collapsed into the
availability flag; when the scheduler is unavailable the fallback manager is
used. -/
def TimerManager.set_timer (s : TMState) (now : ℚ) (ts : ℤ) (duration : ℤ)
    (name? : Option String) : ℤ × TMState :=
  let t_id := s.counter + 1
  let name := name?.getD ("Timer " ++ toString t_id)
  if s.schedAvailable then
    let job_id := "timer_" ++ toString t_id ++ "_" ++ toString ts
    let run_at := now + (duration : ℚ)
    (t_id, { s with counter := t_id,
                    jobstore := s.jobstore ++ [job_id],
                    timers := s.timers ++ [(t_id, TMeta.aps job_id name run_at)] })
  else
    let fr := s.fallback.set_timer now duration name
    (t_id, { s with counter := t_id, fallback := fr.2,
                    timers := s.timers ++ [(t_id, TMeta.fallback fr.1 name)] })

/-- Shallow embedding of TimerManager.cancel_timer.  For an APS-backed id,
remove_job raises JobLookupError when the job store does not hold the job;
the source catches it and returns False with the mapping entry kept.  When
the scheduler is unavailable, remove_job is skipped and the entry is deleted
with True.  For a fallback-backed id the source returns False (keeping the
entry) when the fallback manager does not know the fallback id. -/
def TimerManager.cancel_timer (s : TMState) (t_id : ℤ) : Bool × TMState :=
  match lookupTimer s t_id with
  | none => (false, s)
  | some (TMeta.aps job_id _ _) =>
    if s.schedAvailable then
      if s.jobstore.contains job_id then
        (true, { s with jobstore := s.jobstore.filter (fun j => j != job_id),
                        timers := eraseTimer s.timers t_id })
      else (false, s)
    else (true, { s with timers := eraseTimer s.timers t_id })
  | some (TMeta.fallback fid _) =>
    match s.fallback.cancel_timer fid with
    | (true, fb) => (true, { s with fallback := fb, timers := eraseTimer s.timers t_id })
    | (false, _) => (false, s)

/-- The list contributed by one timers-dict entry in TimerManager.list_timers:
an APS entry is appended only when its remaining time is positive; a
fallback-typed entry appends the whole fallback listing (as the source
else-branch does). -/
def listEntriesOf (s : TMState) (now : ℚ) (p : ℤ × TMeta) : List TimerEntry :=
  match p.2 with
  | TMeta.aps _ name run_at =>
    let remaining := run_at - now
    if 0 < remaining then [⟨p.1, name, remaining⟩] else []
  | TMeta.fallback _ _ => s.fallback.list_timers now

/-- The out-accumulating loop of TimerManager.list_timers. -/
def listTimersGo (s : TMState) (now : ℚ) : List (ℤ × TMeta) → List TimerEntry
  | [] => []
  | p :: rest => listEntriesOf s now p ++ listTimersGo s now rest

/-- Shallow embedding of TimerManager.list_timers. -/
def TimerManager.list_timers (s : TMState) (now : ℚ) : List TimerEntry :=
  listTimersGo s now s.timers

/-- A naive Python datetime: a day index and rational seconds within the day. -/
structure PyDateTime where
  day : ℤ
  tod : ℚ
deriving DecidableEq

/-- Absolute seconds of a datetime (one day = 86400 s, as in naive datetime
arithmetic). -/
def PyDateTime.toSeconds (d : PyDateTime) : ℚ := d.day * 86400 + d.tod

/-- Python datetime comparison (lexicographic on date then time). -/
def dtLe (a b : PyDateTime) : Bool :=
  decide (a.day < b.day) || (a.day == b.day && decide (a.tod ≤ b.tod))

/-- Python (a - b).total_seconds() for naive datetimes. -/
def diffSeconds (a b : PyDateTime) : ℚ :=
  ((a.day - b.day : ℤ) : ℚ) * 86400 + (a.tod - b.tod)

/-- Python int() on a rational: truncation toward zero. -/
def pyInt (x : ℚ) : ℤ := if 0 ≤ x then ⌊x⌋ else -⌊-x⌋

/-- A Python dt.time value as produced by _parse_alarm_time. -/
structure PyTime where
  hour : ℕ
  minute : ℕ
deriving DecidableEq

/-- Seconds within the day of a dt.time. -/
def PyTime.toSecondsOfDay (t : PyTime) : ℚ := t.hour * 3600 + t.minute * 60

/-- Zero-pad to two digits. -/
def pad2 (n : ℕ) : String := if n < 10 then "0" ++ toString n else toString n

/-- target_time.strftime of the 12-hour clock pattern used for alarm names. -/
def PyTime.strftimeIMp (t : PyTime) : String :=
  pad2 ((t.hour + 11) % 12 + 1) ++ ":" ++ pad2 t.minute ++ " " ++
    (if t.hour < 12 then "AM" else "PM")

/-- The fire datetime computed by TimerManager.set_alarm: today at the target
time-of-day, pushed one day later when that instant is not strictly in the
future. -/
def TimerManager.set_alarm_fire (now : PyDateTime) (target : PyTime) : PyDateTime :=
  let td : PyDateTime := ⟨now.day, target.toSecondsOfDay⟩
  if dtLe td now then ⟨td.day + 1, td.tod⟩ else td

/-- duration_seconds = int((target_datetime - now).total_seconds()). -/
def TimerManager.set_alarm_duration (now : PyDateTime) (target : PyTime) : ℤ :=
  pyInt (diffSeconds (TimerManager.set_alarm_fire now target) now)

/-- Shallow embedding of TimerManager.set_alarm. -/
def TimerManager.set_alarm (s : TMState) (now : PyDateTime) (ts : ℤ) (target : PyTime)
    (name? : Option String) : ℤ × TMState :=
  let duration := TimerManager.set_alarm_duration now target
  let name := name?.getD ("Alarm for " ++ target.strftimeIMp)
  TimerManager.set_timer s now.toSeconds ts duration (some name)

/-! Stopwatch state machine (StopwatchManager). -/

/-- The persisted stopwatch state: running flag, optional epoch anchor and
banked elapsed seconds. -/
structure StopwatchState where
  running : Bool
  start_time : Option ℚ
  elapsed_time : ℚ
deriving DecidableEq

/-- Shallow embedding of StopwatchManager.start: from a non-running state,
anchor at now when no previous anchor exists, else at now - elapsed_time
(resume); returns False and leaves the state alone when already running. -/
def StopwatchManager.start (now : ℚ) (s : StopwatchState) : Bool × StopwatchState :=
  if s.running then (false, s)
  else
    let st :=
      match s.start_time with
      | none => now
      | some _ => now - s.elapsed_time
    (true, ⟨true, some st, s.elapsed_time⟩)

/-- Shallow embedding of StopwatchManager.stop.  A running state with a None
anchor would raise a TypeError in the source (impossible under the
transition invariant); that case is modelled as none. -/
def StopwatchManager.stop (now : ℚ) (s : StopwatchState) : Option (ℚ × StopwatchState) :=
  if s.running then
    match s.start_time with
    | some st => some (now - st, ⟨false, some st, now - st⟩)
    | none => none
  else some (s.elapsed_time, s)

/-- StopwatchManager.reset. -/
def StopwatchManager.reset (_ : StopwatchState) : StopwatchState := ⟨false, none, 0⟩

/-- StopwatchManager.get_time (None anchor while running modelled as none). -/
def StopwatchManager.get_time (now : ℚ) (s : StopwatchState) : Option ℚ :=
  if s.running then s.start_time.map (fun st => now - st)
  else some s.elapsed_time

/-! Groq AI fallback gateway (GroqAIHandler.get_response). -/

/-- The message returned when the Groq client was never initialised. -/
def groqUnavailableMsg : String := "Groq AI is not available. Please check API key or network."

/-- The user-facing message returned after every attempt has failed. -/
def groqFailureMsg : String :=
  "I" ++ aposS ++ "m having trouble reaching Groq right now - please try again"

/-- The number of attempts of the retry loop. -/
def GroqAIHandler.attempts : ℕ := 2

/-- The retry loop of GroqAIHandler.get_response: `call i` is the outcome of
the i-th remote chat-completion call (none = the SDK raised).  Returns the
response together with the number of calls issued; the fixed 0.7 s sleep
after each failed attempt is an external effect.  The conversation-context
append on success touches no retry behaviour and is outside this model. -/
def getResponseAux (call : ℕ → Option String) : ℕ → ℕ → String × ℕ
  | 0, made => (groqFailureMsg, made)
  | n + 1, made =>
    match call made with
    | some resp => (resp, made + 1)
    | none => getResponseAux call n (made + 1)

/-- Shallow embedding of GroqAIHandler.get_response. -/
def GroqAIHandler.get_response (clientAvailable : Bool) (call : ℕ → Option String) :
    String × ℕ :=
  if clientAvailable then getResponseAux call GroqAIHandler.attempts 0
  else (groqUnavailableMsg, 0)

/-! Exit versus full termination (VoiceAssistant.handle_exit / terminate). -/

/-- The assistant-level state touched by handle_exit and terminate: the
listening flags, the wake-word loop flag, the background scheduler, the timer
manager state and process liveness. -/
structure AssistantState where
  is_listening : Bool
  keep_running : Bool
  wake_word_listening : Bool
  scheduler_running : Bool
  timer_state : TMState
  stopwatch : StopwatchState
  process_alive : Bool
deriving DecidableEq

/-- Shallow embedding of VoiceAssistant.handle_exit: stop listening and the
wake-word loop, keep the process alive, and touch neither the scheduler nor
any scheduled job. -/
def VoiceAssistant.handle_exit (s : AssistantState) : AssistantState :=
  { s with is_listening := false, keep_running := true, wake_word_listening := false }

/-- Shallow embedding of VoiceAssistant.terminate: stop the wake-word loop,
shut the scheduler down and end the process (os._exit). -/
def VoiceAssistant.terminate (s : AssistantState) : AssistantState :=
  { s with wake_word_listening := false, scheduler_running := false, process_alive := false }

/-! Alarm time parsing (VoiceAssistant._parse_alarm_time). -/

/-- Greedy \d-up-to-two-digits at the head of the list. -/
def takeUpTo2Digits (cs : List Char) : List Char × List Char :=
  match cs with
  | c1 :: rest =>
    if c1.isDigit then
      match rest with
      | c2 :: rest2 => if c2.isDigit then ([c1, c2], rest2) else ([c1], rest)
      | [] => ([c1], [])
    else ([], cs)
  | [] => ([], cs)

/-- Shallow embedding of VoiceAssistant._parse_alarm_time, which searches the
lowered query with a regex of shape: one or two digits, an optional colon, up
to two digits, optional whitespace, an optional am/pm marker.  The leftmost
match starts at the first digit, and since every part after the leading digit
group is optional and greedy no backtracking arises.  The result is the
dt.time(hour % 24, minute % 60) pair. -/
def VoiceAssistant.parse_alarm_time (query : String) : Option PyTime :=
  let cs := (pyLower query).data.dropWhile (fun c => !c.isDigit)
  match cs with
  | [] => none
  | _ :: _ =>
    let g1 := takeUpTo2Digits cs
    let r2 := match g1.2 with | ':' :: t => t | _ => g1.2
    let g2 := takeUpTo2Digits r2
    let r4 := g2.2.dropWhile Char.isWhitespace
    let ampm : Option Bool :=
      match r4 with
      | 'a' :: 'm' :: _ => some false
      | 'p' :: 'm' :: _ => some true
      | _ => none
    let hour := digitsToNat g1.1
    let minute := if g2.1.isEmpty then 0 else digitsToNat g2.1
    let hour :=
      match ampm with
      | some true => if hour ≠ 12 then hour + 12 else hour
      | some false => if hour = 12 then 0 else hour
      | none => hour
    some ⟨hour % 24, minute % 60⟩

/-! Helper lemmas. -/

/-- A find? over a list containing a satisfying element returns the first
satisfying element: there is a first satisfying index, everything before it
fails the predicate, and find? returns exactly that element. -/
theorem find_first_aux {α : Type} (p : α → Bool) (l : List α) (h : ∃ x ∈ l, p x = true) :
    ∃ k, ∃ hk : k < l.length,
      p (l.get ⟨k, hk⟩) = true ∧
      l.find? p = some (l.get ⟨k, hk⟩) ∧
      ∀ j (hj : j < k), p (l.get ⟨j, Nat.lt_trans hj hk⟩) = false := by
  induction l with
  | nil => simp at h
  | cons a t ih =>
    by_cases ha : p a = true
    · refine ⟨0, Nat.succ_pos _, ?_, ?_, ?_⟩
      · simpa using ha
      · simp [List.find?_cons, ha]
      · intro j hj
        exact absurd hj (Nat.not_lt_zero j)
    · have ha' : p a = false := by simpa using ha
      have ht : ∃ x ∈ t, p x = true := by
        rcases h with ⟨x, hx, hpx⟩
        rcases List.mem_cons.mp hx with rfl | hx'
        · exact absurd hpx ha
        · exact ⟨x, hx', hpx⟩
      rcases ih ht with ⟨k, hk, h1, h2, h3⟩
      refine ⟨k + 1, Nat.succ_lt_succ hk, ?_, ?_, ?_⟩
      · simpa using h1
      · simp [List.find?_cons, ha', h2]
      · intro j hj
        cases j with
        | zero => simpa using ha'
        | succ j => simpa using h3 j (Nat.lt_of_succ_lt_succ hj)

/-- Dropping the non-digit prefix of a list containing a digit leaves a
nonempty list. -/
theorem dropWhile_not_digit_ne_nil {l : List Char} (h : l.any Char.isDigit = true) :
    l.dropWhile (fun c => !c.isDigit) ≠ [] := by
  induction l with
  | nil => simp at h
  | cons a t ih =>
    by_cases ha : a.isDigit = true
    · simp [List.dropWhile_cons, ha]
    · have ha' : a.isDigit = false := by simpa using ha
      have ht : t.any Char.isDigit = true := by simpa [ha'] using h
      simpa [List.dropWhile_cons, ha'] using ih ht

/-- Looking a timer id up after the dict deletion fails. -/
theorem lookup_erase_none (l : List (ℤ × TMeta)) (t : ℤ) :
    (eraseTimer l t).find? (fun p => p.1 == t) = none := by
  apply List.find?_eq_none.mpr
  intro x hx
  simp only [eraseTimer] at hx
  have hxt := (List.mem_filter.mp hx).2
  simp only [bne_iff_ne, ne_eq] at hxt
  simpa using hxt

/-! Claim theorems.  The Batteries rational operations are irreducible by
default, which blocks `decide` on concrete rational computations; they are
made semireducible locally so that concrete runs of the embedded code can be
evaluated inside proofs. -/

attribute [local semireducible] Rat.add Rat.mul Rat.inv Rat.sub

/-- C2: the math evaluator returns int 8 for "5 plus 3", float 2.5 for
"10 divided by 4" and int 49 for "7 squared"; it returns a failure (None)
for "banana" and "1 / 0" without raising — and, in divergence from the
spec, it also returns a failure for "square root of 16" (the ordered
replacement list rewrites "of" to " * " before the "square root of" rule
can fire, leaving the unparsable residue "*  16"), instead of the value 4
that the dead "square root of" rule of the source and its sqrt binding in
the eval environment clearly intend. -/
theorem evaluate_math_cases :
    evaluate_math_expression "5 plus 3" = some (PyNum.int 8) ∧
    evaluate_math_expression "10 divided by 4" = some (PyNum.float (5 / 2)) ∧
    evaluate_math_expression "7 squared" = some (PyNum.int 49) ∧
    evaluate_math_expression "square root of 16" = none ∧
    evaluate_math_expression "banana" = none ∧
    evaluate_math_expression "1 / 0" = none := by
  decide

/-- C3 counterexample: "8 divided by 2" has the integer value 4, yet the
evaluator returns the float 4.0 (Python / always produces a float and the
source only rounds it), not the integer 4 that the claim requires. -/
theorem evaluate_division_float_counterexample :
    evaluate_math_expression "8 divided by 2" = some (PyNum.float 4) ∧
    PyNum.float 4 ≠ PyNum.int 4 := by
  decide

/-- C3 amended: the evaluator returns results with the Python types: a value
produced as an int is returned as that integer ("5 plus 3" gives int 8), but
any division produces a float even when its value is integral, which is
returned rounded, not converted to int ("8 divided by 2" gives float 4.0). -/
theorem evaluate_result_typing :
    evaluate_math_expression "8 divided by 2" = some (PyNum.float 4) ∧
    evaluate_math_expression "5 plus 3" = some (PyNum.int 8) ∧
    ∀ a b : ℤ, b ≠ 0 →
      pyDiv (PyNum.int a) (PyNum.int b) = some (PyNum.float (((a : ℤ) : ℚ) / ((b : ℤ) : ℚ))) := by
  refine ⟨by decide, by decide, ?_⟩
  intro a b hb
  have hb' : ((b : ℤ) : ℚ) ≠ 0 := Int.cast_ne_zero.mpr hb
  simp [pyDiv, PyNum.toQ, hb']

/-- C3 amended, witness at a concrete division. -/
theorem evaluate_result_typing_witness :
    pyDiv (PyNum.int 5) (PyNum.int 2) = some (PyNum.float (((5 : ℤ) : ℚ) / ((2 : ℤ) : ℚ))) :=
  evaluate_result_typing.2.2 5 2 (by decide)

/-- C8: the Groq gateway issues at most 2 calls to the remote completion
service, and when both attempts fail it returns the fixed apologetic failure
string (the error object never reaches the caller). -/
theorem groq_bounded_retry (call : ℕ → Option String) :
    (GroqAIHandler.get_response true call).2 ≤ GroqAIHandler.attempts ∧
    ((∀ i, i < GroqAIHandler.attempts → call i = none) →
      GroqAIHandler.get_response true call = (groqFailureMsg, GroqAIHandler.attempts)) := by
  have e : GroqAIHandler.get_response true call =
      (match call 0 with
       | some resp => (resp, 1)
       | none =>
         match call 1 with
         | some resp => (resp, 2)
         | none => (groqFailureMsg, 2)) := rfl
  constructor
  · rw [e]
    cases call 0 <;> cases call 1 <;> simp [GroqAIHandler.attempts]
  · intro h
    have h0 := h 0 (by norm_num [GroqAIHandler.attempts])
    have h1 := h 1 (by norm_num [GroqAIHandler.attempts])
    rw [e, h0, h1]
    rfl

/-- C8 witness: both attempts failing yields the apology after 2 calls. -/
theorem groq_bounded_retry_witness :
    GroqAIHandler.get_response true (fun _ => none) = (groqFailureMsg, GroqAIHandler.attempts) :=
  (groq_bounded_retry (fun _ => none)).2 (fun _ _ => rfl)

/-- C9: handle_exit only lowers the listening and wake-word flags (keeping
the process-alive flag), and leaves the timer manager state, the scheduler
and process liveness untouched; only terminate stops the scheduler and ends
the process, itself leaving the scheduled jobs map untouched. -/
theorem handle_exit_frame (s : AssistantState) :
    (VoiceAssistant.handle_exit s).timer_state = s.timer_state ∧
    (VoiceAssistant.handle_exit s).scheduler_running = s.scheduler_running ∧
    (VoiceAssistant.handle_exit s).process_alive = s.process_alive ∧
    (VoiceAssistant.handle_exit s).stopwatch = s.stopwatch ∧
    (VoiceAssistant.handle_exit s).is_listening = false ∧
    (VoiceAssistant.handle_exit s).wake_word_listening = false ∧
    (VoiceAssistant.handle_exit s).keep_running = true ∧
    (VoiceAssistant.terminate s).scheduler_running = false ∧
    (VoiceAssistant.terminate s).process_alive = false ∧
    (VoiceAssistant.terminate s).timer_state = s.timer_state :=
  ⟨rfl, rfl, rfl, rfl, rfl, rfl, rfl, rfl, rfl, rfl⟩

/-- C10: whenever the alarm-time regex finds a digit in the query,
_parse_alarm_time returns a dt.time without raising, and the result is
always in range: hour < 24 and minute < 60 (the parsed values are reduced
modulo 24 and modulo 60 rather than rejected). -/
theorem parse_alarm_time_total_in_range (query : String)
    (h : (pyLower query).data.any Char.isDigit = true) :
    ∃ t : PyTime, VoiceAssistant.parse_alarm_time query = some t ∧
      t.hour < 24 ∧ t.minute < 60 := by
  unfold VoiceAssistant.parse_alarm_time
  cases hcs : (pyLower query).data.dropWhile (fun c => !c.isDigit) with
  | nil => exact absurd hcs (dropWhile_not_digit_ne_nil h)
  | cons c rest =>
    exact ⟨_, rfl, Nat.mod_lt _ (by norm_num), Nat.mod_lt _ (by norm_num)⟩

/-- C10 witness: the out-of-range spoken time "25:99" silently wraps to
dt.time(1, 39). -/
theorem parse_alarm_time_witness :
    (∃ t : PyTime, VoiceAssistant.parse_alarm_time "25:99" = some t ∧
      t.hour < 24 ∧ t.minute < 60) ∧
    VoiceAssistant.parse_alarm_time "25:99" = some ⟨1, 39⟩ :=
  ⟨parse_alarm_time_total_in_range "25:99" (by decide), by decide⟩

/-- C1: when an utterance matches the patterns of two (or more) different
intents, recognize_command returns the intent of the first matching entry in
the fixed table order: there is a first matching index k, every entry before
k fails to match, and the returned intent is the one at k — independently of
the optional spaCy pass, so repeated calls (with or without spaCy) return
that same intent.  The regex engine is abstracted by the oracle rmatch. -/
theorem recognize_command_first_match
    (rmatch : String → String → Bool) (query qi qj : String)
    (hq : query ≠ "") (_hij : qi ≠ qj)
    (hi : ∃ cp ∈ command_patterns, cp.1 = qi ∧
      cp.2.any (fun p => rmatch p (pyLower query)) = true)
    (_hj : ∃ cp ∈ command_patterns, cp.1 = qj ∧
      cp.2.any (fun p => rmatch p (pyLower query)) = true) :
    ∃ k, ∃ hk : k < command_patterns.length,
      (command_patterns.get ⟨k, hk⟩).2.any (fun p => rmatch p (pyLower query)) = true ∧
      (∀ l (hl : l < k),
        (command_patterns.get ⟨l, Nat.lt_trans hl hk⟩).2.any
          (fun p => rmatch p (pyLower query)) = false) ∧
      ∀ nlp, recognize_command rmatch nlp query = (command_patterns.get ⟨k, hk⟩).1 := by
  have hex : ∃ cp ∈ command_patterns,
      (fun cp : String × List String => cp.2.any (fun p => rmatch p (pyLower query))) cp = true := by
    rcases hi with ⟨cp, hmem, _, hany⟩
    exact ⟨cp, hmem, hany⟩
  rcases find_first_aux _ _ hex with ⟨k, hk, h1, h2, h3⟩
  refine ⟨k, hk, h1, h3, ?_⟩
  intro nlp
  simp only [recognize_command, if_neg hq, h2]

/-- C1 witness oracle: a regex engine under which every pattern matches. -/
def alwaysMatch : String → String → Bool := fun _ _ => true

/-- C1 witness: "clock" under the all-matching oracle matches both "time" and
"date" patterns; the classifier settles on the first table entry. -/
theorem recognize_command_first_match_witness :
    ∃ k, ∃ hk : k < command_patterns.length,
      (command_patterns.get ⟨k, hk⟩).2.any (fun p => alwaysMatch p (pyLower "clock")) = true ∧
      (∀ l (hl : l < k),
        (command_patterns.get ⟨l, Nat.lt_trans hl hk⟩).2.any
          (fun p => alwaysMatch p (pyLower "clock")) = false) ∧
      ∀ nlp, recognize_command alwaysMatch nlp "clock" = (command_patterns.get ⟨k, hk⟩).1 :=
  recognize_command_first_match alwaysMatch "clock" "time" "date" (by decide) (by decide)
    (by decide) (by decide)

/-- A pending timer id: the timers dict holds it, and its backing store knows
it (an APS job id in the job store when the scheduler is available, or a
live fallback timer). -/
def pendingTimer (s : TMState) (t : ℤ) : Bool :=
  match lookupTimer s t with
  | some (TMeta.aps job_id _ _) => !s.schedAvailable || s.jobstore.contains job_id
  | some (TMeta.fallback fid _) => s.fallback.timers.any (fun p => p.1 == fid)
  | none => false

/-- C4: cancelling an id the manager does not know (never issued, already
fired — firing deletes the entry — or already cancelled) returns false and
leaves the state unchanged, so every repetition also returns false; and the
total embedding returns rather than throwing on every input.  Cancelling a
pending id returns true, and the repeated call on the resulting state
returns false. -/
theorem cancel_timer_spec (s : TMState) (t : ℤ) :
    (lookupTimer s t = none → TimerManager.cancel_timer s t = (false, s)) ∧
    (pendingTimer s t = true →
      (TimerManager.cancel_timer s t).1 = true ∧
      (TimerManager.cancel_timer (TimerManager.cancel_timer s t).2 t).1 = false) := by
  have hsecond : ∀ s2 : TMState, s2.timers = eraseTimer s.timers t →
      (TimerManager.cancel_timer s2 t).1 = false := by
    intro s2 h2
    have hlk2 : lookupTimer s2 t = none := by
      unfold lookupTimer
      rw [h2, lookup_erase_none]
      rfl
    unfold TimerManager.cancel_timer
    rw [hlk2]
  constructor
  · intro h
    unfold TimerManager.cancel_timer
    rw [h]
  · intro hp
    unfold pendingTimer at hp
    cases hlk : lookupTimer s t with
    | none => rw [hlk] at hp; simp at hp
    | some meta =>
      rw [hlk] at hp
      cases meta with
      | aps job_id nm ra =>
        by_cases hav : s.schedAvailable = true
        · have hjob : s.jobstore.contains job_id = true := by
            simpa [hav] using hp
          have hc : TimerManager.cancel_timer s t =
              (true, { s with jobstore := s.jobstore.filter (fun j => j != job_id),
                              timers := eraseTimer s.timers t }) := by
            unfold TimerManager.cancel_timer
            rw [hlk]
            simp only [hav, hjob, if_true]
          rw [hc]
          exact ⟨rfl, hsecond _ rfl⟩
        · have hav' : s.schedAvailable = false := by simpa using hav
          have hc : TimerManager.cancel_timer s t =
              (true, { s with timers := eraseTimer s.timers t }) := by
            unfold TimerManager.cancel_timer
            rw [hlk]
            simp [hav']
          rw [hc]
          exact ⟨rfl, hsecond _ rfl⟩
      | fallback fid nm =>
        have hfb : s.fallback.timers.any (fun p => p.1 == fid) = true := hp
        have hc : TimerManager.cancel_timer s t =
            (true, { s with
                     fallback := ⟨s.fallback.timers.filter (fun p => p.1 != fid),
                                  s.fallback.counter⟩,
                     timers := eraseTimer s.timers t }) := by
          unfold TimerManager.cancel_timer FallbackState.cancel_timer
          rw [hlk]
          simp [hfb]
        rw [hc]
        exact ⟨rfl, hsecond _ rfl⟩

/-- A state holding one APS-backed 60-second timer, for the cancel witness. -/
def cancelWitnessState : TMState :=
  (TimerManager.set_timer (TMState.init true) 0 100 60 (some "t")).2

/-- C4 witness: on a concrete one-timer state, cancelling the unknown id 99
returns false with the state unchanged (hence false again on repetition),
and cancelling the pending id 1 returns true once and then false. -/
theorem cancel_timer_spec_witness :
    TimerManager.cancel_timer cancelWitnessState 99 = (false, cancelWitnessState) ∧
    (TimerManager.cancel_timer cancelWitnessState 1).1 = true ∧
    (TimerManager.cancel_timer (TimerManager.cancel_timer cancelWitnessState 1).2 1).1 = false :=
  ⟨(cancel_timer_spec cancelWitnessState 99).1 (by decide),
   (cancel_timer_spec cancelWitnessState 1).2 (by decide)⟩

/-- All timers-dict entries are APScheduler-backed. -/
def allAps (s : TMState) : Bool :=
  s.timers.all (fun p =>
    match p.2 with
    | TMeta.aps _ _ _ => true
    | TMeta.fallback _ _ => false)

/-- The filter picking the APS entries whose remaining time is positive. -/
def apsPending (now : ℚ) (p : ℤ × TMeta) : Bool :=
  match p.2 with
  | TMeta.aps _ _ run_at => decide (0 < run_at - now)
  | TMeta.fallback _ _ => false

/-- The C5 amended listing property for APS-only states: every returned
entry has positive remaining time, and there is exactly one entry per
pending (positive-remaining) job. -/
def ListTimersApsSpec (s : TMState) (now : ℚ) : Prop :=
  (∀ e ∈ TimerManager.list_timers s now, 0 < e.remaining) ∧
  (TimerManager.list_timers s now).length = (s.timers.filter (apsPending now)).length

/-- Helper for C5: the listing loop over an APS-only entry list filters by
positive remaining time and emits one entry per kept job. -/
theorem listTimersGo_aps (s : TMState) (now : ℚ) (l : List (ℤ × TMeta))
    (h : l.all (fun p =>
      match p.2 with
      | TMeta.aps _ _ _ => true
      | TMeta.fallback _ _ => false) = true) :
    (∀ e ∈ listTimersGo s now l, 0 < e.remaining) ∧
    (listTimersGo s now l).length = (l.filter (apsPending now)).length := by
  induction l with
  | nil => simp [listTimersGo]
  | cons p rest ih =>
    rw [List.all_cons, Bool.and_eq_true] at h
    rcases h with ⟨h1, h2⟩
    rcases ih h2 with ⟨ih1, ih2⟩
    cases hm : p.2 with
    | aps jid nm ra =>
      by_cases hrem : 0 < ra - now
      · constructor
        · intro e he
          rw [listTimersGo] at he
          simp only [listEntriesOf, hm, if_pos hrem, List.mem_append, List.mem_singleton] at he
          rcases he with rfl | he
          · exact hrem
          · exact ih1 e he
        · rw [listTimersGo]
          simp [listEntriesOf, hm, if_pos hrem, List.filter_cons, apsPending, hrem, ih2]
      · constructor
        · intro e he
          rw [listTimersGo] at he
          simp only [listEntriesOf, hm, if_neg hrem, List.nil_append] at he
          exact ih1 e he
        · rw [listTimersGo]
          simp [listEntriesOf, hm, if_neg hrem, List.filter_cons, apsPending, hrem, ih2]
    | fallback fid nm =>
      rw [hm] at h1
      simp at h1

/-- A state holding one APS-backed 2-second timer "t1" scheduled at time 0. -/
def apsListState : TMState :=
  (TimerManager.set_timer (TMState.init true) 0 100 2 (some "t1")).2

/-- C5 amended: for APScheduler-backed jobs the claim holds — every listed
entry has remaining time > 0 and the listing holds exactly one entry per
pending job; in particular, immediately after schedule(2, "t1") on the APS
path, list() returns exactly one entry, named "t1", with remaining 2.  (The
fallback path, shown in the counterexample, filters nothing and duplicates
the fallback listing once per fallback-typed map entry.) -/
theorem list_timers_aps_spec (s : TMState) (now : ℚ) (h : allAps s = true) :
    ListTimersApsSpec s now ∧
    TimerManager.list_timers apsListState 0 = [⟨1, "t1", 2⟩] := by
  refine ⟨?_, by decide⟩
  unfold allAps at h
  exact listTimersGo_aps s now s.timers h

/-- C5 witness: the amended property at the concrete one-APS-timer state. -/
theorem list_timers_aps_spec_witness :
    ListTimersApsSpec apsListState 0 ∧
    TimerManager.list_timers apsListState 0 = [⟨1, "t1", 2⟩] :=
  list_timers_aps_spec apsListState 0 (by decide)

/-- A state reached by scheduling two 2-second fallback timers ("t1", "t2")
at time 0 on a manager whose durable scheduler is unavailable. -/
def fallbackListState : TMState :=
  (TimerManager.set_timer
    (TimerManager.set_timer (TMState.init false) 0 100 2 (some "t1")).2
    0 100 2 (some "t2")).2

/-- C5 counterexample: after two fallback schedules the listing returns 4
entries for 2 pending jobs (the whole fallback listing is appended once per
fallback-typed map entry), violating "exactly one entry per pending job";
and at time 5 the expired job "t1" is listed with remaining -3 ≤ 0,
violating "no entry whose remaining time is ≤ 0". -/
theorem list_timers_counterexample :
    fallbackListState.timers.length = 2 ∧
    (TimerManager.list_timers fallbackListState 0).length = 4 ∧
    (⟨1, "t1", -3⟩ : TimerEntry) ∈ TimerManager.list_timers fallbackListState 5 ∧
    ¬ (∀ e ∈ TimerManager.list_timers fallbackListState 5, 0 < e.remaining) := by
  decide

/-- Datetime comparison unfolded to a proposition. -/
theorem dtLe_eq_true_iff (a b : PyDateTime) :
    dtLe a b = true ↔ (a.day < b.day ∨ (a.day = b.day ∧ a.tod ≤ b.tod)) := by
  unfold dtLe
  simp [Bool.or_eq_true, Bool.and_eq_true, beq_iff_eq, decide_eq_true_eq]

/-- Failed datetime comparison unfolded to a proposition. -/
theorem dtLe_eq_false_iff (a b : PyDateTime) :
    dtLe a b = false ↔ (b.day < a.day ∨ (a.day = b.day ∧ b.tod < a.tod)) := by
  rw [Bool.eq_false_iff, ne_eq, dtLe_eq_true_iff]
  constructor
  · intro h
    push_neg at h
    rcases lt_trichotomy a.day b.day with hd | hd | hd
    · exact absurd hd (not_lt.mpr h.1)
    · exact Or.inr ⟨hd, h.2 hd⟩
    · exact Or.inl hd
  · rintro (hd | ⟨hd, ht⟩) hcon
    · rcases hcon with h | ⟨h, _⟩
      · omega
      · omega
    · rcases hcon with h | ⟨_, h⟩
      · omega
      · exact absurd h (not_le.mpr ht)

/-- The C6 property: the fire instant of set_alarm is today at the target
time-of-day when that is still ahead, else tomorrow at it; the fire instant
is strictly in the future and is the nearest future occurrence of the
time-of-day; the computed delay is the (floor of the) seconds from now until
the fire instant; and on the durable path the run_at of the scheduled
run_at is exactly now plus that delay. -/
def SetAlarmCorrect (now : PyDateTime) (target : PyTime) : Prop :=
  (target.toSecondsOfDay ≤ now.tod →
    TimerManager.set_alarm_fire now target = ⟨now.day + 1, target.toSecondsOfDay⟩) ∧
  (now.tod < target.toSecondsOfDay →
    TimerManager.set_alarm_fire now target = ⟨now.day, target.toSecondsOfDay⟩) ∧
  dtLe (TimerManager.set_alarm_fire now target) now = false ∧
  (∀ d : ℤ, dtLe ⟨d, target.toSecondsOfDay⟩ now = false →
    dtLe (TimerManager.set_alarm_fire now target) ⟨d, target.toSecondsOfDay⟩ = true) ∧
  TimerManager.set_alarm_duration now target =
    ⌊diffSeconds (TimerManager.set_alarm_fire now target) now⌋ ∧
  ∀ (s : TMState) (ts : ℤ) (nm : Option String), s.schedAvailable = true →
    (TimerManager.set_alarm s now ts target nm).2.timers =
      s.timers ++ [(s.counter + 1,
        TMeta.aps ("timer_" ++ toString (s.counter + 1) ++ "_" ++ toString ts)
          (nm.getD ("Alarm for " ++ target.strftimeIMp))
          (now.toSeconds + (TimerManager.set_alarm_duration now target : ℚ)))]

/-- C6: setting an alarm schedules a one-shot job at the nearest future
occurrence of the wall-clock time-of-day (today if still ahead, else 24
hours later), with delay the whole seconds from now until that instant. -/
theorem set_alarm_spec (now : PyDateTime) (target : PyTime)
    (_h0 : 0 ≤ now.tod) (h1 : now.tod < 86400) :
    SetAlarmCorrect now target := by
  have htar0 : (0 : ℚ) ≤ target.toSecondsOfDay := by
    unfold PyTime.toSecondsOfDay
    positivity
  have hjob : ∀ (s : TMState) (ts : ℤ) (nm : Option String), s.schedAvailable = true →
      (TimerManager.set_alarm s now ts target nm).2.timers =
        s.timers ++ [(s.counter + 1,
          TMeta.aps ("timer_" ++ toString (s.counter + 1) ++ "_" ++ toString ts)
            (nm.getD ("Alarm for " ++ target.strftimeIMp))
            (now.toSeconds + (TimerManager.set_alarm_duration now target : ℚ)))] := by
    intro s ts nm hav
    unfold TimerManager.set_alarm TimerManager.set_timer
    simp [hav]
  unfold SetAlarmCorrect
  by_cases hle : target.toSecondsOfDay ≤ now.tod
  · have hfire : TimerManager.set_alarm_fire now target
        = ⟨now.day + 1, target.toSecondsOfDay⟩ := by
      unfold TimerManager.set_alarm_fire
      simp [dtLe, hle]
    have hdiff : diffSeconds (⟨now.day + 1, target.toSecondsOfDay⟩ : PyDateTime) now
        = 86400 + target.toSecondsOfDay - now.tod := by
      unfold diffSeconds
      push_cast
      ring
    have hpos : (0 : ℚ) ≤ diffSeconds (TimerManager.set_alarm_fire now target) now := by
      rw [hfire, hdiff]
      linarith
    refine ⟨fun _ => hfire, fun hlt => absurd hle (not_le.mpr hlt), ?_, ?_, ?_, hjob⟩
    · rw [hfire, dtLe_eq_false_iff]
      exact Or.inl (by simp)
    · intro d hd
      rw [dtLe_eq_false_iff] at hd
      rw [hfire, dtLe_eq_true_iff]
      dsimp only at hd ⊢
      rcases hd with hd | ⟨_, hd2⟩
      · rcases lt_or_eq_of_le (by omega : now.day + 1 ≤ d) with h' | h'
        · exact Or.inl h'
        · exact Or.inr ⟨h', le_refl _⟩
      · exact absurd hd2 (not_lt.mpr hle)
    · unfold TimerManager.set_alarm_duration pyInt
      rw [if_pos hpos]
  · have hlt : now.tod < target.toSecondsOfDay := not_le.mp hle
    have hfire : TimerManager.set_alarm_fire now target
        = ⟨now.day, target.toSecondsOfDay⟩ := by
      unfold TimerManager.set_alarm_fire
      simp [dtLe, hle]
    have hdiff : diffSeconds (⟨now.day, target.toSecondsOfDay⟩ : PyDateTime) now
        = target.toSecondsOfDay - now.tod := by
      unfold diffSeconds
      push_cast
      ring
    have hpos : (0 : ℚ) ≤ diffSeconds (TimerManager.set_alarm_fire now target) now := by
      rw [hfire, hdiff]
      linarith
    refine ⟨fun hx => absurd hx hle, fun _ => hfire, ?_, ?_, ?_, hjob⟩
    · rw [hfire, dtLe_eq_false_iff]
      exact Or.inr ⟨rfl, hlt⟩
    · intro d hd
      rw [dtLe_eq_false_iff] at hd
      rw [hfire, dtLe_eq_true_iff]
      dsimp only at hd ⊢
      rcases hd with hd | ⟨hd1, _⟩
      · exact Or.inl hd
      · exact Or.inr ⟨hd1.symm, le_refl _⟩
    · unfold TimerManager.set_alarm_duration pyInt
      rw [if_pos hpos]

/-- C6 witness: at 01:00:00 on day 0 an alarm for 00:30 fires tomorrow. -/
theorem set_alarm_spec_witness : SetAlarmCorrect ⟨0, 3600⟩ ⟨0, 30⟩ :=
  set_alarm_spec ⟨0, 3600⟩ ⟨0, 30⟩ (by norm_num) (by norm_num)

/-- Starting from a stopped state with a previous anchor resumes at
now - elapsed. -/
theorem start_stopped (now st e : ℚ) :
    StopwatchManager.start now ⟨false, some st, e⟩ = (true, ⟨true, some (now - e), e⟩) := rfl

/-- Stopping a running state returns now - anchor and banks it. -/
theorem stop_running (now st e : ℚ) :
    StopwatchManager.stop now ⟨true, some st, e⟩ = some (now - st, ⟨false, some st, now - st⟩) :=
  rfl

/-- The C7 property: starting at t0 from a stopped state with banked elapsed
e anchors the stopwatch at t0 - e; stopping at t1 yields e + (t1 - t0); and
the full start/stop/start/stop sequence accumulates the two running
intervals instead of resetting. -/
def StopwatchAccumulates (s : StopwatchState) (t0 t1 t2 t3 : ℚ) : Prop :=
  StopwatchManager.start t0 s = (true, ⟨true, some (t0 - s.elapsed_time), s.elapsed_time⟩) ∧
  StopwatchManager.stop t1 ⟨true, some (t0 - s.elapsed_time), s.elapsed_time⟩ =
    some (s.elapsed_time + (t1 - t0),
      ⟨false, some (t0 - s.elapsed_time), s.elapsed_time + (t1 - t0)⟩) ∧
  StopwatchManager.start t2
      ⟨false, some (t0 - s.elapsed_time), s.elapsed_time + (t1 - t0)⟩ =
    (true, ⟨true, some (t2 - (s.elapsed_time + (t1 - t0))), s.elapsed_time + (t1 - t0)⟩) ∧
  StopwatchManager.stop t3
      ⟨true, some (t2 - (s.elapsed_time + (t1 - t0))), s.elapsed_time + (t1 - t0)⟩ =
    some (s.elapsed_time + (t1 - t0) + (t3 - t2),
      ⟨false, some (t2 - (s.elapsed_time + (t1 - t0))),
        s.elapsed_time + (t1 - t0) + (t3 - t2)⟩)

/-- C7: from a stopped state whose banked elapsed is e (a fresh state has no
anchor and e = 0, matching the load invariant), start anchors at now - e, so
the following stop yields e plus the running interval, and the
start-stop-start-stop sequence accumulates both intervals. -/
theorem stopwatch_accumulate (s : StopwatchState) (t0 t1 t2 t3 : ℚ)
    (hr : s.running = false) (hb : s.start_time = none → s.elapsed_time = 0) :
    StopwatchAccumulates s t0 t1 t2 t3 := by
  have hstart : StopwatchManager.start t0 s
      = (true, ⟨true, some (t0 - s.elapsed_time), s.elapsed_time⟩) := by
    cases hst : s.start_time with
    | none =>
      have he := hb hst
      simp [StopwatchManager.start, hr, hst, he]
    | some st =>
      simp [StopwatchManager.start, hr, hst]
  have e1 : t1 - (t0 - s.elapsed_time) = s.elapsed_time + (t1 - t0) := by ring
  have e2 : t3 - (t2 - (s.elapsed_time + (t1 - t0)))
      = s.elapsed_time + (t1 - t0) + (t3 - t2) := by ring
  refine ⟨hstart, ?_, ?_, ?_⟩
  · rw [stop_running, e1]
  · rw [start_stopped]
  · rw [stop_running, e2]

/-- C7 witness: from the fresh stopped state, running over [0, 1] and then
[5, 7] accumulates elapsed 3. -/
theorem stopwatch_accumulate_witness : StopwatchAccumulates ⟨false, none, 0⟩ 0 1 5 7 :=
  stopwatch_accumulate ⟨false, none, 0⟩ 0 1 5 7 rfl (fun _ => rfl)

end Orion
